import Mathlib

/-!
Verification of the mathparse repository: a decoder for compiled-library
files in the marshal format (src/src/parse.rs, src/src/types.rs).

Bytes are modelled as natural numbers below 256 in a list; machine
integers are modelled as Nat or Int, with usize arithmetic taken
modulo 2 ^ 64 (release-mode wrapping semantics).  Fallible parsing
returns Option: a parse error (nom Err) and the panic-class slips that
cannot arise on the paths exercised here are both mapped to none.
Parsers take the remaining input and return the parsed value together
with the remaining suffix, mirroring nom IResult up to argument order.
-/

namespace Mathparse

/-- The byte-string type: a list of naturals, each intended below 256. -/
abbrev Bytes := List Nat

/-- The usize modulus: pointers and lengths wrap modulo 2 ^ 64. -/
def USIZE : Nat := 2 ^ 64

/-- Wrapping usize subtraction, as performed by release-mode Rust for
the expression a - b on usize operands. -/
def wsub (a b : Nat) : Nat := (a + USIZE - b % USIZE) % USIZE

/-- Cast of a signed 32-bit value (held as Int) to usize, as performed
by the Rust expression n as usize: sign-extension modulo 2 ^ 64. -/
def toUSize (n : Int) : Nat := (n % (USIZE : Int)).toNat

/-- Reinterpret a w-bit unsigned value as signed two-complement. -/
def toSigned (w : Nat) (n : Nat) : Int :=
  if n < 2 ^ (w - 1) then (n : Int) else (n : Int) - 2 ^ w

/-- Embeds nom take: exactly n bytes, or a short-read error. -/
def takeP (n : Nat) (i : Bytes) : Option (Bytes × Bytes) :=
  if n ≤ i.length then some (i.take n, i.drop n) else none

/-- Embeds nom be_u8. -/
def be_u8 : Bytes → Option (Nat × Bytes)
  | [] => none
  | b :: r => some (b, r)

/-- Embeds nom be_u16 (big-endian). -/
def be_u16 : Bytes → Option (Nat × Bytes)
  | b0 :: b1 :: r => some (b0 * 256 + b1, r)
  | _ => none

/-- Embeds nom be_u24 (big-endian). -/
def be_u24 : Bytes → Option (Nat × Bytes)
  | b0 :: b1 :: b2 :: r => some ((b0 * 256 + b1) * 256 + b2, r)
  | _ => none

/-- Embeds nom be_u32 (big-endian). -/
def be_u32 : Bytes → Option (Nat × Bytes)
  | b0 :: b1 :: b2 :: b3 :: r => some (((b0 * 256 + b1) * 256 + b2) * 256 + b3, r)
  | _ => none

/-- Embeds nom be_u64 (big-endian). -/
def be_u64 : Bytes → Option (Nat × Bytes)
  | b0 :: b1 :: b2 :: b3 :: b4 :: b5 :: b6 :: b7 :: r =>
      some (((((((b0 * 256 + b1) * 256 + b2) * 256 + b3) * 256 + b4) * 256 + b5)
        * 256 + b6) * 256 + b7, r)
  | _ => none

/-- Embeds nom be_i8 (signed). -/
def be_i8 (i : Bytes) : Option (Int × Bytes) :=
  (be_u8 i).map fun p => (toSigned 8 p.1, p.2)

/-- Embeds nom be_i16 (big-endian signed). -/
def be_i16 (i : Bytes) : Option (Int × Bytes) :=
  (be_u16 i).map fun p => (toSigned 16 p.1, p.2)

/-- Embeds nom be_i32 (big-endian signed). -/
def be_i32 (i : Bytes) : Option (Int × Bytes) :=
  (be_u32 i).map fun p => (toSigned 32 p.1, p.2)

/-- Embeds nom be_i64 (big-endian signed). -/
def be_i64 (i : Bytes) : Option (Int × Bytes) :=
  (be_u64 i).map fun p => (toSigned 64 p.1, p.2)

/-- Embeds cstring from src/src/parse.rs: take_till a NUL then skip it.
If no NUL is present the source would index one past the end of an
empty slice, a panic, modelled as none. -/
def cstring (i : Bytes) : Option (Bytes × Bytes) :=
  let s := i.takeWhile fun b => b ≠ 0
  match i.dropWhile fun b => b ≠ 0 with
  | [] => none
  | _ :: r => some (s, r)

/-- Embeds be_u63 from src/src/parse.rs: a signed big-endian 8-byte
integer that must be non-negative. -/
def be_u63 (i : Bytes) : Option (Nat × Bytes) :=
  match be_i64 i with
  | none => none
  | some (n, r) => if n < 0 then none else some (n.toNat, r)

/-- Embeds nom tag applied to a constant pattern. -/
def tagP (pat : Bytes) (i : Bytes) : Option Bytes :=
  if pat.length ≤ i.length ∧ i.take pat.length = pat then some (i.drop pat.length) else none

/-- The Repr tag-decoder output of src/src/parse.rs. -/
inductive Repr where
  | RInt : Int → Repr
  | RInt63 : Nat → Repr
  | RBlock : Nat → Nat → Repr
  | RString : Bytes → Repr
  | RPointer : Nat → Repr
  | RCode : Int → Repr
deriving DecidableEq

/-- Embeds header32 from src/src/parse.rs: 3-byte big-endian length
then a tag byte; the length is shifted right by two. -/
def header32 (i : Bytes) : Option ((Nat × Nat) × Bytes) :=
  match be_u24 i with
  | none => none
  | some (len, i1) =>
    match be_u8 i1 with
    | none => none
    | some (tg, i2) => some ((tg, len >>> 2), i2)

/-- Embeds header64 from src/src/parse.rs: 8-byte big-endian word;
tag is the low byte, length the word shifted right by ten. -/
def header64 (i : Bytes) : Option ((Nat × Nat) × Bytes) :=
  match be_u64 i with
  | none => none
  | some (d, i1) => some ((d &&& 0xff, d >>> 10), i1)

/-- Embeds parse_object from src/src/parse.rs: reads one lead byte and
dispatches to produce one Repr token.  Branches appear in source
order; every unhandled code is a failure. -/
def parse_object (i : Bytes) : Option (Repr × Bytes) :=
  match be_u8 i with
  | none => none
  | some (data, i1) =>
    if 0x80 ≤ data ∧ data ≤ 0xff then
      some (.RBlock (data &&& 0xf) ((data >>> 4) &&& 0x7), i1)
    else if 0x40 ≤ data ∧ data ≤ 0x7f then
      some (.RInt ((data &&& 0x3f : Nat) : Int), i1)
    else if 0x20 ≤ data ∧ data ≤ 0x3f then
      (takeP (data &&& 0x1f) i1).map fun p => (.RString p.1, p.2)
    else if data = 0 then
      (be_i8 i1).map fun p => (.RInt p.1, p.2)
    else if data = 1 then
      (be_i16 i1).map fun p => (.RInt p.1, p.2)
    else if data = 2 then
      (be_i32 i1).map fun p => (.RInt p.1, p.2)
    else if data = 3 then
      (be_i64 i1).map fun p => (.RInt p.1, p.2)
    else if data = 4 then
      (be_u8 i1).map fun p => (.RPointer p.1, p.2)
    else if data = 5 then
      (be_u16 i1).map fun p => (.RPointer p.1, p.2)
    else if data = 6 then
      (be_u32 i1).map fun p => (.RPointer p.1, p.2)
    else if data = 8 then
      (header32 i1).map fun p => (.RBlock p.1.1 p.1.2, p.2)
    else if data = 19 then
      (header64 i1).map fun p => (.RBlock p.1.1 p.1.2, p.2)
    else if data = 9 then
      match be_u8 i1 with
      | none => none
      | some (len, i2) => (takeP len i2).map fun p => (.RString p.1, p.2)
    else if data = 10 then
      match be_u32 i1 with
      | none => none
      | some (len, i2) => (takeP len i2).map fun p => (.RString p.1, p.2)
    else if data = 16 then
      match be_u32 i1 with
      | none => none
      | some (addr, i2) => (takeP 16 i2).map fun p => (.RCode (addr : Int), p.2)
    else if data = 18 then
      match cstring i1 with
      | none => none
      | some (s, i2) =>
        if s = [95, 106] then
          (be_u63 i2).map fun p => (.RInt63 p.1, p.2)
        else none
    else none

/-! ## UTF-8 validity

Models the success condition of Rust String::from_utf8 (used by the
typed layer): standard UTF-8 well-formedness per RFC 3629, rejecting
overlong forms, surrogates and values above U+10FFFF. -/

/-- A UTF-8 continuation byte. -/
def isCont (b : Nat) : Bool := 0x80 ≤ b ∧ b ≤ 0xbf

/-- Standard UTF-8 validity of a byte sequence. -/
def validUtf8 : Bytes → Bool
  | [] => true
  | b :: r =>
    if b ≤ 0x7f then validUtf8 r
    else if 0xc2 ≤ b ∧ b ≤ 0xdf then
      match r with
      | c1 :: r1 => isCont c1 && validUtf8 r1
      | _ => false
    else if b = 0xe0 then
      match r with
      | c1 :: c2 :: r1 => (0xa0 ≤ c1 ∧ c1 ≤ 0xbf : Bool) && isCont c2 && validUtf8 r1
      | _ => false
    else if (0xe1 ≤ b ∧ b ≤ 0xec) ∨ b = 0xee ∨ b = 0xef then
      match r with
      | c1 :: c2 :: r1 => isCont c1 && isCont c2 && validUtf8 r1
      | _ => false
    else if b = 0xed then
      match r with
      | c1 :: c2 :: r1 => (0x80 ≤ c1 ∧ c1 ≤ 0x9f : Bool) && isCont c2 && validUtf8 r1
      | _ => false
    else if b = 0xf0 then
      match r with
      | c1 :: c2 :: c3 :: r1 =>
          (0x90 ≤ c1 ∧ c1 ≤ 0xbf : Bool) && isCont c2 && isCont c3 && validUtf8 r1
      | _ => false
    else if 0xf1 ≤ b ∧ b ≤ 0xf3 then
      match r with
      | c1 :: c2 :: c3 :: r1 => isCont c1 && isCont c2 && isCont c3 && validUtf8 r1
      | _ => false
    else if b = 0xf4 then
      match r with
      | c1 :: c2 :: c3 :: r1 =>
          (0x80 ≤ c1 ∧ c1 ≤ 0x8f : Bool) && isCont c2 && isCont c3 && validUtf8 r1
      | _ => false
    else false

/-! ## The eager Memory of src/src/parse.rs

The Rust Memory holds cells of type Option of Rc of dyn Any: a None
cell is reserved but under construction; a Some cell holds a
type-erased completed value which pointer resolution downcasts.  The
dyn Any universe is modelled by the closed inductive UVal covering
every type the parsers of this development store, and downcasting by
a projection function out of UVal. -/

/-- A directory path: the list of its segment strings. -/
abbrev DirPath := List Bytes

/-- A digest: a 16-byte string. -/
abbrev Dig := Bytes

/-- A dependency entry: a path and its wrapped digest. -/
abbrev Dep := DirPath × Dig

/-- The summary-segment value: name, imports, dependencies. -/
abbrev Summary := DirPath × List DirPath × List Dep

/-- The universe of values stored in Memory cells (the image of the
Rust Rc of dyn Any for the types used in this development). -/
inductive UVal where
  | ustr : Bytes → UVal
  | udig : Bytes → UVal
  | udirPath : DirPath → UVal
  | ulistDirPath : List DirPath → UVal
  | uwrapDig : Dig → UVal
  | udep : Dep → UVal
  | ulistDep : List Dep → UVal
  | usummary : Summary → UVal
  | upairStr : Bytes × Bytes → UVal
deriving DecidableEq

/-- The Memory of src/src/parse.rs: an append-only cell table.  A none
cell is under construction (reserved, not yet backfilled). -/
structure Memory where
  cells : List (Option UVal)
deriving DecidableEq

/-- Embeds Memory::with_capacity: the capacity is a perf hint with no
observable effect on the cell list. -/
def Memory.with_capacity (_size : Nat) : Memory := ⟨[]⟩

/-- Embeds Memory::len. -/
def Memory.len (m : Memory) : Nat := m.cells.length

/-- Embeds Memory::push. -/
def Memory.push (m : Memory) (v : UVal) : Memory := ⟨m.cells ++ [some v]⟩

/-- Embeds Memory::point_back2: index is the wrapping usize difference
of the length and the offset; an index at or beyond the length is the
next-object error, an under-construction target and a failed downcast
are also errors. -/
def Memory.point_back2 (proj : UVal → Option α) (m : Memory) (offset : Nat) : Option α :=
  if m.cells.length ≤ wsub m.cells.length offset then none
  else
    match m.cells.get? (wsub m.cells.length offset) with
    | some (some rc) => proj rc
    | some none => none
    | none => none

/-- Embeds Memory::reserve_for_struct: push an under-construction cell
and return its address. -/
def Memory.reserve_for_struct (m : Memory) : Nat × Memory :=
  (m.cells.length, ⟨m.cells ++ [none]⟩)

/-- Embeds Memory::backfill_struct2: the cell must exist and be under
construction (the panic on a completed cell is modelled as none). -/
def Memory.backfill_struct2 (m : Memory) (addr : Nat) (v : UVal) : Option Memory :=
  match m.cells.get? addr with
  | some none => some ⟨m.cells.set addr (some v)⟩
  | _ => none

/-- The type of the typed eager parsers of src/src/parse.rs: they
mutate Memory and consume input. -/
abbrev P (α : Type) := Memory → Bytes → Option (α × Memory × Bytes)

/-- The injection-projection pair standing for one Rust type inside
the Rc of dyn Any universe. -/
structure Ty (α : Type) where
  inj : α → UVal
  proj : UVal → Option α

/-- Embeds the string combinator of src/src/parse.rs: a back-pointer
resolves to a previously stored cell, a string literal is validated,
stored and returned. -/
def string (t : Ty α) (f : Bytes → Option α) : P α := fun mem i =>
  match parse_object i with
  | some (.RPointer n, i1) => (mem.point_back2 t.proj n).map fun v => (v, mem, i1)
  | some (.RString s, i1) =>
      match f s with
      | some v => some (v, mem.push (t.inj v), i1)
      | none => none
  | _ => none

/-- Embeds the int combinator of src/src/parse.rs. -/
def int : P Int := fun mem i =>
  match parse_object i with
  | some (.RInt n, i1) => some (n, mem, i1)
  | _ => none

/-- Embeds the block combinator of src/src/parse.rs: a back-pointer
resolves in Memory; otherwise the object must be a block with tag zero
and positive length, whose cell is reserved, filled by the body parser
and backfilled. -/
def block (t : Ty α) (f : Nat → P α) : P α := fun mem i =>
  match parse_object i with
  | some (.RPointer n, i1) => (mem.point_back2 t.proj n).map fun v => (v, mem, i1)
  | some (.RBlock 0 len, i1) =>
      if 0 < len then
        let r := mem.reserve_for_struct
        match f len r.2 i1 with
        | some (d, mem2, i2) =>
            match mem2.backfill_struct2 r.1 (t.inj d) with
            | some mem3 => some (d, mem3, i2)
            | none => none
        | none => none
      else none
  | _ => none

/-- Parse a fixed count of items in sequence (the loop body of the vec
combinator of src/src/parse.rs). -/
def countP (f : P α) : Nat → P (List α)
  | 0 => fun mem i => some ([], mem, i)
  | n + 1 => fun mem i =>
    match f mem i with
    | some (a, m1, i1) =>
        match countP f n m1 i1 with
        | some (l, m2, i2) => some (a :: l, m2, i2)
        | none => none
    | none => none

/-- Embeds the vec combinator of src/src/parse.rs: a block whose
declared length counts the homogeneous elements. -/
def vec (t : Ty (List α)) (f : P α) : P (List α) :=
  block t fun len => countP f len

/-- Embeds the block1 combinator of src/src/parse.rs. -/
def block1 (t : Ty ρ) (f : P α) (m : α → Option ρ) : P ρ :=
  block t fun len mem i =>
    if len = 1 then
      match f mem i with
      | some (a, m1, i1) =>
          match m a with
          | some r => some (r, m1, i1)
          | none => none
      | none => none
    else none

/-- Embeds the block2 combinator of src/src/parse.rs. -/
def block2 (t : Ty ρ) (f : P α) (g : P β) (m : α → β → Option ρ) : P ρ :=
  block t fun len mem i =>
    if len = 2 then
      match f mem i with
      | some (a, m1, i1) =>
          match g m1 i1 with
          | some (b, m2, i2) =>
              match m a b with
              | some r => some (r, m2, i2)
              | none => none
          | none => none
      | none => none
    else none

/-- Embeds the block3 combinator of src/src/parse.rs. -/
def block3 (t : Ty ρ) (f : P α) (g : P β) (h : P γ) (m : α → β → γ → Option ρ) : P ρ :=
  block t fun len mem i =>
    if len = 3 then
      match f mem i with
      | some (a, m1, i1) =>
          match g m1 i1 with
          | some (b, m2, i2) =>
              match h m2 i2 with
              | some (c, m3, i3) =>
                  match m a b c with
                  | some r => some (r, m3, i3)
                  | none => none
              | none => none
          | none => none
      | none => none
    else none

/-- Embeds the wrapped combinator of src/src/parse.rs: a unary tag-0
block transparently unwrapped. -/
def wrapped (t : Ty α) (f : P α) : P α :=
  block1 t f fun a => some a

/-- Embeds the tuple2 combinator of src/src/parse.rs. -/
def tuple2 (t : Ty (α × β)) (f : P α) (g : P β) : P (α × β) :=
  block2 t f g fun a b => some (a, b)

/-- Embeds the my combinator of src/src/parse.rs: unshare an Rc into
an owned clone, the identity in value semantics. -/
def my (f : P α) : P α := fun mem i => f mem i

/-- Embeds the nullable combinator of src/src/parse.rs: an immediate
zero is the null value; anything else backtracks and re-parses with
the underlying parser. -/
def nullable (f : P α) : P (Option α) := fun mem i =>
  match parse_object i with
  | some (.RInt 0, newi) => some (none, mem, newi)
  | some _ =>
      match f mem i with
      | some (v, m1, i1) => some (some v, m1, i1)
      | none => none
  | none => none

/-! ## The summary-segment schema

The call segment(SummaryDisk::parse_val, ...) in src/src/parse.rs
requires a VoParseRef instance for SummaryDisk that is absent from
src/ (src/src/types.rs implements the lazy Parseable trait against a
Memory interface that is itself absent).  The parsers below are
modelled from the spec, section 4.7, composed from the source
combinators above. -/

/-- The Ty instance of the Rust String type. -/
def tyStr : Ty Bytes :=
  ⟨.ustr, fun u => match u with | .ustr s => some s | _ => none⟩

/-- The Ty instance of the digest byte-string type. -/
def tyDig : Ty Bytes :=
  ⟨.udig, fun u => match u with | .udig s => some s | _ => none⟩

/-- The Ty instance of DirPath. -/
def tyDirPath : Ty DirPath :=
  ⟨.udirPath, fun u => match u with | .udirPath p => some p | _ => none⟩

/-- The Ty instance of a vector of DirPath. -/
def tyListDirPath : Ty (List DirPath) :=
  ⟨.ulistDirPath, fun u => match u with | .ulistDirPath l => some l | _ => none⟩

/-- The Ty instance of a wrapped digest. -/
def tyWrapDig : Ty Dig :=
  ⟨.uwrapDig, fun u => match u with | .uwrapDig d => some d | _ => none⟩

/-- The Ty instance of a dependency pair. -/
def tyDep : Ty Dep :=
  ⟨.udep, fun u => match u with | .udep d => some d | _ => none⟩

/-- The Ty instance of a vector of dependency pairs. -/
def tyListDep : Ty (List Dep) :=
  ⟨.ulistDep, fun u => match u with | .ulistDep l => some l | _ => none⟩

/-- The Ty instance of the summary value. -/
def tySummary : Ty Summary :=
  ⟨.usummary, fun u => match u with | .usummary s => some s | _ => none⟩

/-- The Ty instance of a pair of strings. -/
def tyPairStr : Ty (Bytes × Bytes) :=
  ⟨.upairStr, fun u => match u with | .upairStr p => some p | _ => none⟩

/-- Modelled from the spec: a text string cell with the UTF-8
byte-validator of section 4.4. -/
def utf8String : P Bytes :=
  string tyStr fun s => if validUtf8 s then some s else none

/-- Modelled from the spec: a digest string cell whose validator
requires exactly 16 bytes (section 4.7). -/
def digest16 : P Bytes :=
  string tyDig fun s => if s.length = 16 then some s else none

/-- Modelled from the spec: the DirPath parser, section 4.7: a
right-recursive nullable list, either an immediate zero (the empty
path) or a tag-0 pair of a head string and a tail DirPath.  The fuel
argument bounds the recursion depth; every call site passes at least
the input length, which the cons case strictly decreases. -/
def dirPathGo : Nat → P DirPath
  | 0 => fun _ _ => none
  | fuel + 1 => fun mem i =>
    match nullable (block2 tyDirPath utf8String (dirPathGo fuel)
        fun h tl => some (h :: tl)) mem i with
    | some (none, m, r) => some ([], m, r)
    | some (some p, m, r) => some (p, m, r)
    | none => none

/-- Modelled from the spec: the wrapped 16-byte digest of section
4.7. -/
def wrappedDigest : P Dig := wrapped tyWrapDig digest16

/-- Modelled from the spec: one dependency entry, a pair of a DirPath
and a wrapped digest. -/
def dep (fuel : Nat) : P Dep := tuple2 tyDep (dirPathGo fuel) wrappedDigest

/-- Modelled from the spec: the SummaryDisk root parser of section
4.7, a tag-0 triple of name, imports and dependencies. -/
def summaryGo (fuel : Nat) : P Summary :=
  block3 tySummary (dirPathGo fuel) (vec tyListDirPath (dirPathGo fuel))
    (vec tyListDep (dep fuel)) fun a b c => some (a, b, c)

/-- Modelled from the spec: SummaryDisk::parse_val, with fuel seeded
by the input length (an upper bound on the recursion depth). -/
def summary : P Summary := fun mem i => summaryGo i.length mem i

/-! ## Segment and file drivers of src/src/parse.rs -/

/-- Embeds vo_magic: a big-endian signed 32-bit word equal to 8991. -/
def vo_magic (i : Bytes) : Option Bytes :=
  match be_i32 i with
  | some (m, i1) => if m = 8991 then some i1 else none
  | none => none

/-- Embeds header from src/src/parse.rs: the segment magic then four
signed big-endian 32-bit integers length, objects, size32, size64,
returned reordered as (length, size32, size64, objects) exactly as in
the source. -/
def header (i : Bytes) : Option ((Int × Int × Int × Int) × Bytes) :=
  match tagP [132, 149, 166, 190] i with
  | none => none
  | some i1 =>
    match be_i32 i1 with
    | none => none
    | some (length, i2) =>
      match be_i32 i2 with
      | none => none
      | some (objects, i3) =>
        match be_i32 i3 with
        | none => none
        | some (size32, i4) =>
          match be_i32 i4 with
          | none => none
          | some (size64, i5) => some ((length, size32, size64, objects), i5)

/-- Embeds segment from src/src/parse.rs: stop offset, header, a fresh
Memory, one root object, then the three fatal post-condition checks
and the 16-byte digest.  The final Memory is returned alongside the
source result so the post-conditions can be stated (the source drops
it on return). -/
def segment (f : P α) (file_len : Nat) (i : Bytes) :
    Option ((α × Nat × Bytes) × Memory × Bytes) :=
  match be_i32 i with
  | none => none
  | some (stop, i1) =>
    match header i1 with
    | none => none
    | some ((len, _s32, _s64, size), i2) =>
      match f (Memory.with_capacity (toUSize size)) i2 with
      | none => none
      | some (obj, mem, i3) =>
        if mem.len ≠ toUSize size then none
        else if wsub i2.length i3.length ≠ toUSize len then none
        else if wsub file_len i3.length ≠ toUSize stop then none
        else
          match takeP 16 i3 with
          | none => none
          | some (digest, i4) => some ((obj, toUSize stop, digest), mem, i4)

/-- Embeds file_contents from src/src/parse.rs: the file magic then a
single summary segment; the checksum verification over the remaining
segments is commented out in the source. -/
def file_contents (i : Bytes) : Option (Unit × Bytes) :=
  match vo_magic i with
  | none => none
  | some i1 =>
    match segment summary i.length i1 with
    | none => none
    | some (_, _mem, rest) => some ((), rest)

/-- Embeds nom all_consuming: the inner parser must leave no input. -/
def all_consuming (f : Bytes → Option (α × Bytes)) (i : Bytes) : Option α :=
  match f i with
  | some (v, []) => some v
  | _ => none

/-- Embeds file from src/src/parse.rs. -/
def file (i : Bytes) : Option Unit := all_consuming file_contents i

/-! ## The lazy typed-binding layer of src/src/types.rs

src/src/types.rs implements Parseable instances against a Memory of
MemoryCell values with resolve_ref and resolve_nullable methods; that
Memory interface is absent from src/ (src/src/parse.rs holds the other
variant), so the cell store, the graph filler driving it and the
resolvers are modelled from the spec (sections 3.2, 3.3, 4.2 and 4.4)
while the from_cell projections are embedded from src/src/types.rs. -/

/-- The Data union of src/src/parse.rs: an untyped reference to a
cell, an immediate scalar, or a zero-arity block. -/
inductive Data where
  | int : Int → Data
  | ptr : Nat → Data
  | atm : Nat → Data
deriving DecidableEq

/-- A cached typed projection (the Resolved cell state of the spec,
section 3.2), for the target types this development projects. -/
inductive RVal where
  | rstr : Bytes → RVal
  | rdirPath : DirPath → RVal
deriving DecidableEq

/-- Modelled from the spec, section 3.2: the cell states of the lazy
Memory. -/
inductive MemoryCell where
  | underConstruction : MemoryCell
  | mstruct : Nat → List Data → MemoryCell
  | mint63 : Nat → MemoryCell
  | mstring : Bytes → MemoryCell
  | resolved : RVal → MemoryCell
deriving DecidableEq

/-- The lazy Memory: the address-indexed cell sequence. -/
abbrev Mem2 := List MemoryCell

/-- Modelled from the spec, section 4.2: the graph filler.  It drives
the tag decoder parse_object of src/src/parse.rs recursively,
populating the cell store for one root object.  The fuel argument
bounds the recursion depth; every call site passes more than the input
length, which each recursive call strictly decreases. -/
def fill : Nat → Mem2 → Bytes → Option (Data × Mem2 × Bytes)
  | 0, _, _ => none
  | fuel + 1, mem, i =>
    match parse_object i with
    | none => none
    | some (r, i1) =>
      match r with
      | .RInt n => some (.int n, mem, i1)
      | .RString s => some (.ptr mem.length, mem ++ [.mstring s], i1)
      | .RInt63 n => some (.ptr mem.length, mem ++ [.mint63 n], i1)
      | .RBlock tg len =>
        if len = 0 then some (.atm tg, mem, i1)
        else
          let a := mem.length
          match (List.range len).foldlM
              (fun (st : List Data × Mem2 × Bytes) _ =>
                (fill fuel st.2.1 st.2.2).map fun q => (st.1 ++ [q.1], q.2.1, q.2.2))
              ([], mem ++ [.underConstruction], i1) with
          | some (children, mem2, i2) =>
            match mem2.get? a with
            | some .underConstruction => some (.ptr a, mem2.set a (.mstruct tg children), i2)
            | _ => none
          | none => none
      | .RPointer k =>
        if k = 0 ∨ mem.length < k then none
        else
          match mem.get? (mem.length - k) with
          | some .underConstruction => none
          | some _ => some (.ptr (mem.length - k), mem, i1)
          | none => none
      | .RCode _ => none

/-- Embeds the Parseable instance for String from src/src/types.rs:
the cell must be a string whose bytes are valid UTF-8. -/
def stringFromCell : MemoryCell → Option Bytes
  | .mstring s => if validUtf8 s then some s else none
  | _ => none

/-- Modelled from the spec, section 4.4: resolve_ref at target type
String: only a pointer resolves; a cached projection is reused,
otherwise the projection is computed once and cached in the cell. -/
def resolveString (d : Data) (mem : Mem2) : Option (Bytes × Mem2) :=
  match d with
  | .ptr addr =>
    match mem.get? addr with
    | some (.resolved (.rstr s)) => some (s, mem)
    | some (.resolved _) => none
    | some c =>
      match stringFromCell c with
      | some s => some (s, mem.set addr (.resolved (.rstr s)))
      | none => none
    | none => none
  | _ => none

/-- Embeds the Parseable instance for DirPath from src/src/types.rs,
parameterized by the tail resolver (resolve_nullable, absent from
src/): the cell must be a tag-0 struct of exactly two children; the
head resolves as a String, the tail as a nullable DirPath, and the
result is the head followed by the tail segments. -/
def dirPathFromCellGen (resolveNul : Data → Mem2 → Option (Option DirPath × Mem2))
    (cell : MemoryCell) (mem : Mem2) : Option (DirPath × Mem2) :=
  match cell with
  | .mstruct 0 blk =>
    match blk with
    | [d0, d1] =>
      match resolveString d0 mem with
      | some (head, m1) =>
        match resolveNul d1 m1 with
        | some (none, m2) => some ([head], m2)
        | some (some tail, m2) => some (head :: tail, m2)
        | none => none
      | none => none
    | _ => none
  | _ => none

/-- Modelled from the spec, section 4.4: the nullable projection,
generic in the underlying resolver: an immediate zero is absent,
anything else resolves through the underlying type. -/
def resolveNullableGen (resolve : Data → Mem2 → Option (DirPath × Mem2))
    (d : Data) (mem : Mem2) : Option (Option DirPath × Mem2) :=
  match d with
  | .int 0 => some (none, mem)
  | _ => (resolve d mem).map fun p => (some p.1, p.2)

/-- Modelled from the spec, section 4.4: resolve_ref at target type
DirPath, with caching, fuelled for the recursion through the cell
graph. -/
def resolveDirPath : Nat → Data → Mem2 → Option (DirPath × Mem2)
  | 0, _, _ => none
  | fuel + 1, d, mem =>
    match d with
    | .ptr addr =>
      match mem.get? addr with
      | some (.resolved (.rdirPath p)) => some (p, mem)
      | some (.resolved _) => none
      | some c =>
        match dirPathFromCellGen (resolveNullableGen (resolveDirPath fuel)) c mem with
        | some (p, m1) => some (p, m1.set addr (.resolved (.rdirPath p)))
        | none => none
      | none => none
    | _ => none

/-- Embeds DirPath::from_cell of src/src/types.rs at a given fuel for
the tail recursion. -/
def dirPathFromCell (fuel : Nat) : MemoryCell → Mem2 → Option (DirPath × Mem2) :=
  dirPathFromCellGen (resolveNullableGen (resolveDirPath fuel))

/-- The lazy decoding pipeline for one DirPath root: fill the cell
store from the bytes (consuming all of them), then project the root
Data as a DirPath. -/
def decodeDirPath (i : Bytes) : Option DirPath :=
  match fill (i.length + 1) [] i with
  | some (d, mem, []) => (resolveDirPath (mem.length + 1) d mem).map fun p => p.1
  | _ => none

/-! ## MD5

Modelled from the spec: the file-tail checksum named by sections 4.6
and 8 (P5) is MD5; the digest computation lives in an external crate,
so the standard algorithm (RFC 1321) is reproduced here to state the
checksum property. -/

/-- The 32-bit modulus of the MD5 state words. -/
def U32 : Nat := 2 ^ 32

/-- The MD5 sine-derived round constants. -/
def md5K : List Nat :=
  [0xd76aa478, 0xe8c7b756, 0x242070db, 0xc1bdceee,
   0xf57c0faf, 0x4787c62a, 0xa8304613, 0xfd469501,
   0x698098d8, 0x8b44f7af, 0xffff5bb1, 0x895cd7be,
   0x6b901122, 0xfd987193, 0xa679438e, 0x49b40821,
   0xf61e2562, 0xc040b340, 0x265e5a51, 0xe9b6c7aa,
   0xd62f105d, 0x02441453, 0xd8a1e681, 0xe7d3fbc8,
   0x21e1cde6, 0xc33707d6, 0xf4d50d87, 0x455a14ed,
   0xa9e3e905, 0xfcefa3f8, 0x676f02d9, 0x8d2a4c8a,
   0xfffa3942, 0x8771f681, 0x6d9d6122, 0xfde5380c,
   0xa4beea44, 0x4bdecfa9, 0xf6bb4b60, 0xbebfbc70,
   0x289b7ec6, 0xeaa127fa, 0xd4ef3085, 0x04881d05,
   0xd9d4d039, 0xe6db99e5, 0x1fa27cf8, 0xc4ac5665,
   0xf4292244, 0x432aff97, 0xab9423a7, 0xfc93a039,
   0x655b59c3, 0x8f0ccc92, 0xffeff47d, 0x85845dd1,
   0x6fa87e4f, 0xfe2ce6e0, 0xa3014314, 0x4e0811a1,
   0xf7537e82, 0xbd3af235, 0x2ad7d2bb, 0xeb86d391]

/-- The MD5 per-round left-rotation amounts. -/
def md5Shift : List Nat :=
  [7, 12, 17, 22, 7, 12, 17, 22, 7, 12, 17, 22, 7, 12, 17, 22,
   5, 9, 14, 20, 5, 9, 14, 20, 5, 9, 14, 20, 5, 9, 14, 20,
   4, 11, 16, 23, 4, 11, 16, 23, 4, 11, 16, 23, 4, 11, 16, 23,
   6, 10, 15, 21, 6, 10, 15, 21, 6, 10, 15, 21, 6, 10, 15, 21]

/-- 32-bit left rotation. -/
def rotl32 (x s : Nat) : Nat := ((x <<< s) % U32) ||| (x >>> (32 - s))

/-- The low count bytes of a value, little-endian. -/
def leBytes (count n : Nat) : Bytes :=
  (List.range count).map fun j => (n >>> (8 * j)) % 256

/-- Little-endian 32-bit word number j of a 64-byte chunk. -/
def leWord (chunk : Bytes) (j : Nat) : Nat :=
  chunk.getD (4 * j) 0 + 256 * (chunk.getD (4 * j + 1) 0 +
    256 * (chunk.getD (4 * j + 2) 0 + 256 * chunk.getD (4 * j + 3) 0))

/-- One MD5 round applied to the running state. -/
def md5Step (chunk : Bytes) (st : Nat × Nat × Nat × Nat) (idx : Nat) :
    Nat × Nat × Nat × Nat :=
  let a := st.1
  let b := st.2.1
  let c := st.2.2.1
  let d := st.2.2.2
  let f :=
    if idx < 16 then (b &&& c) ||| ((b ^^^ 0xffffffff) &&& d)
    else if idx < 32 then (d &&& b) ||| ((d ^^^ 0xffffffff) &&& c)
    else if idx < 48 then b ^^^ c ^^^ d
    else c ^^^ (b ||| (d ^^^ 0xffffffff))
  let g :=
    if idx < 16 then idx
    else if idx < 32 then (5 * idx + 1) % 16
    else if idx < 48 then (3 * idx + 5) % 16
    else (7 * idx) % 16
  let f2 := (f + a + md5K.getD idx 0 + leWord chunk g) % U32
  (d, (b + rotl32 f2 (md5Shift.getD idx 0)) % U32, b, c)

/-- Process one 64-byte chunk into the MD5 state. -/
def md5Chunk (st : Nat × Nat × Nat × Nat) (chunk : Bytes) : Nat × Nat × Nat × Nat :=
  let r := (List.range 64).foldl (md5Step chunk) st
  ((st.1 + r.1) % U32, (st.2.1 + r.2.1) % U32,
   (st.2.2.1 + r.2.2.1) % U32, (st.2.2.2 + r.2.2.2) % U32)

/-- Split a byte string into 64-byte chunks; the fuel argument is a
recursion bound seeded with the input length. -/
def chunks64Go : Nat → Bytes → List Bytes
  | 0, _ => []
  | _, [] => []
  | fuel + 1, b :: r => (b :: r.take 63) :: chunks64Go fuel (r.drop 63)

/-- Split a byte string into 64-byte chunks. -/
def chunks64 (l : Bytes) : List Bytes := chunks64Go l.length l

/-- MD5 padding: a 0x80 byte, zeros to 56 modulo 64, then the 64-bit
little-endian bit length. -/
def md5Pad (msg : Bytes) : Bytes :=
  msg ++ [0x80] ++ List.replicate ((119 - msg.length % 64) % 64) 0 ++
    leBytes 8 ((msg.length * 8) % 2 ^ 64)

/-- The MD5 digest of a byte string: 16 bytes. -/
def md5 (msg : Bytes) : Bytes :=
  let fin := (chunks64 (md5Pad msg)).foldl md5Chunk
    (0x67452301, 0xefcdab89, 0x98badcfe, 0x10325476)
  leBytes 4 fin.1 ++ leBytes 4 fin.2.1 ++ leBytes 4 fin.2.2.1 ++ leBytes 4 fin.2.2.2

/-! ## Concrete test vectors -/

/-- Instance synthesis for the nested product behind Summary needs a
registered shortcut. -/
instance instDecEqSummary : DecidableEq Summary := instDecidableEqProd

/-- A concrete marshalled summary body: a tag-0 triple of an empty
name path, one empty import path, and one dependency of an empty path
with a 16-byte digest string. -/
def Fbody : Bytes :=
  [0xB0, 0x40, 0x90, 0x40, 0x90, 0xA0, 0x40, 0x90, 0x30] ++ List.replicate 16 0x42

/-- A concrete segment: stop offset 53, segment magic, length 25,
objects 6, size32 7, size64 9, then the body. -/
def Fseg : Bytes :=
  [0, 0, 0, 53] ++ [132, 149, 166, 190] ++ [0, 0, 0, 25] ++ [0, 0, 0, 6] ++
    [0, 0, 0, 7] ++ [0, 0, 0, 9] ++ Fbody

/-- The segment followed by an all-zero 16-byte digest trailer. -/
def FsegInput : Bytes := Fseg ++ List.replicate 16 0

/-- A complete 69-byte file: magic, segment, zero digest trailer. -/
def F0 : Bytes := [0, 0, 35, 31] ++ FsegInput

/-- The same file with an all-one digest trailer. -/
def F1 : Bytes := [0, 0, 35, 31] ++ Fseg ++ List.replicate 16 1

/-- The 16-byte digest string cell content of the test body. -/
def dig42 : Bytes := List.replicate 16 66

/-- The summary value decoded from the test body. -/
def sumVal : Summary := ([], [[]], [([], dig42)])

/-- The final Memory produced by decoding the test body. -/
def memF : Memory :=
  ⟨[some (.usummary sumVal), some (.ulistDirPath [[]]),
    some (.ulistDep [([], dig42)]), some (.udep ([], dig42)),
    some (.uwrapDig dig42), some (.udig dig42)]⟩

/-! ## Helper lemmas -/

/-- Wrapping usize subtraction agrees with plain subtraction in range
and lands at or above the minuend on underflow. -/
theorem wsub_spec (L k : Nat) (hL : L < USIZE) (hk : k ≤ USIZE) :
    wsub L k = if k ≤ L then L - k else L + USIZE - k := by
  unfold wsub
  rcases Nat.eq_or_lt_of_le hk with h | h
  · subst h
    rw [Nat.mod_self, Nat.sub_zero, Nat.add_mod_right, Nat.mod_eq_of_lt hL,
      if_neg (by omega)]
    omega
  · rw [Nat.mod_eq_of_lt h]
    by_cases hkl : k ≤ L
    · rw [if_pos hkl, show L + USIZE - k = L - k + USIZE by omega, Nat.add_mod_right,
        Nat.mod_eq_of_lt (by omega)]
    · rw [if_neg hkl, Nat.mod_eq_of_lt (by omega)]

/-- Successful takeP yields the prefix and suffix of its input. -/
theorem takeP_eq_some {n : Nat} {i a b : Bytes} (h : takeP n i = some (a, b)) :
    a = i.take n ∧ b = i.drop n ∧ n ≤ i.length := by
  unfold takeP at h
  split_ifs at h with hn
  obtain ⟨ha, hb⟩ := Prod.mk.injEq .. ▸ Option.some.injEq .. ▸ h
  exact ⟨ha.symm, hb.symm, hn⟩

/-- Successful be_u32 consumed exactly four bytes of its input. -/
theorem be_u32_shape : ∀ (i : Bytes) (n : Nat) (r : Bytes), be_u32 i = some (n, r) →
    ∃ b0 b1 b2 b3, i = b0 :: b1 :: b2 :: b3 :: r ∧
      n = ((b0 * 256 + b1) * 256 + b2) * 256 + b3
  | [], _, _, h => by simp [be_u32] at h
  | [_], _, _, h => by simp [be_u32] at h
  | [_, _], _, _, h => by simp [be_u32] at h
  | [_, _, _], _, _, h => by simp [be_u32] at h
  | b0 :: b1 :: b2 :: b3 :: r', n, r, h => by
      simp only [be_u32, Option.some.injEq, Prod.mk.injEq] at h
      exact ⟨b0, b1, b2, b3, by rw [h.2], h.1.symm⟩

/-! ## Claims -/

/-- Claim C6: the tag decoder maps a lead byte b in 0x80..0xff to a
block with tag the low nibble and length the next three bits,
consuming no further bytes; b in 0x40..0x7f to the immediate integer
of its low six bits; and b in 0x20..0x3f to a string of exactly the
low five bits many following bytes. -/
theorem claim_C6_small_prefixes (b : Nat) (rest : Bytes) :
    (0x80 ≤ b ∧ b ≤ 0xff →
      parse_object (b :: rest) = some (.RBlock (b &&& 0xf) ((b >>> 4) &&& 0x7), rest))
    ∧ (0x40 ≤ b ∧ b ≤ 0x7f →
      parse_object (b :: rest) = some (.RInt ((b &&& 0x3f : Nat) : Int), rest))
    ∧ (0x20 ≤ b ∧ b ≤ 0x3f → b &&& 0x1f ≤ rest.length →
      parse_object (b :: rest) =
        some (.RString (rest.take (b &&& 0x1f)), rest.drop (b &&& 0x1f))) := by
  refine ⟨fun h => ?_, fun h => ?_, fun h hlen => ?_⟩
  · simp only [parse_object, be_u8]
    rw [if_pos h]
  · simp only [parse_object, be_u8]
    rw [if_neg (by omega), if_pos h]
  · simp only [parse_object, be_u8]
    rw [if_neg (by omega), if_neg (by omega), if_pos h]
    simp [takeP, hlen]

/-- Witness for claim C6 at the lead bytes 0xB2, 0x41 and 0x22. -/
theorem claim_C6_witness :
    parse_object [0xB2] = some (.RBlock 2 3, [])
    ∧ parse_object [0x41] = some (.RInt 1, [])
    ∧ parse_object [0x22, 7, 8] = some (.RString [7, 8], []) := by
  refine ⟨?_, ?_, ?_⟩
  · exact ((claim_C6_small_prefixes 0xB2 []).1 (by decide)).trans (by decide)
  · exact ((claim_C6_small_prefixes 0x41 []).2.1 (by decide)).trans (by decide)
  · exact ((claim_C6_small_prefixes 0x22 [7, 8]).2.2 (by decide) (by decide)).trans (by decide)

/-- Claim C7: an object with the CUSTOM lead byte 0x12 decodes
successfully only when the NUL-terminated identifier is the two bytes
of the string of an underscore and the letter j and the following
signed big-endian 8-byte payload is non-negative, yielding that value
as an Int63; the example with payload 42 succeeds, a negative payload
fails, and any other identifier fails. -/
theorem claim_C7_custom_int63 :
    (∀ (rest i1 : Bytes) (r : Repr), parse_object (18 :: rest) = some (r, i1) →
      ∃ t n, cstring rest = some ([95, 106], t) ∧ be_u63 t = some (n, i1) ∧ r = .RInt63 n)
    ∧ parse_object (18 :: 95 :: 106 :: 0 :: [0, 0, 0, 0, 0, 0, 0, 42]) = some (.RInt63 42, [])
    ∧ parse_object (18 :: 95 :: 106 :: 0 :: [128, 0, 0, 0, 0, 0, 0, 0]) = none
    ∧ parse_object (18 :: 95 :: 120 :: 0 :: [0, 0, 0, 0, 0, 0, 0, 42]) = none := by
  refine ⟨?_, by decide, by decide, by decide⟩
  intro rest i1 r h
  have hred : parse_object (18 :: rest) =
      (match cstring rest with
       | none => none
       | some (s, i2) =>
         if s = [95, 106] then (be_u63 i2).map fun p => (Repr.RInt63 p.1, p.2)
         else none) := rfl
  rw [hred] at h
  split at h
  · exact absurd h (by simp)
  · rename_i s i2 hc
    split_ifs at h with hs
    · cases hb : be_u63 i2 with
      | none => rw [hb] at h; exact absurd h (by simp)
      | some p =>
        obtain ⟨n, i3⟩ := p
        rw [hb] at h
        simp only [Option.map_some', Option.some.injEq, Prod.mk.injEq] at h
        exact ⟨i2, n, hs ▸ hc, h.2 ▸ hb, h.1.symm⟩

/-- Witness for claim C7 at the Int63 example with payload 42. -/
theorem claim_C7_witness :
    ∃ t n, cstring [95, 106, 0, 0, 0, 0, 0, 0, 0, 0, 42] = some ([95, 106], t)
      ∧ be_u63 t = some (n, []) ∧ Repr.RInt63 42 = .RInt63 n :=
  claim_C7_custom_int63.1 [95, 106, 0, 0, 0, 0, 0, 0, 0, 0, 42] [] (.RInt63 42) (by decide)


/-- Claim C2: resolving a back-pointer of offset k against a Memory of
length L yields the projection of the completed cell at address L - k,
and is a semantic error whenever k is zero, k exceeds L, or the target
cell is still under construction; in particular a SHARED8 of payload 1
at the start of a segment is rejected.  Usize arithmetic is wrapping
(release semantics), so no case panics. -/
theorem claim_C2_point_back :
    (∀ (α : Type) (proj : UVal → Option α) (mem : Memory) (k : Nat),
      k ≤ USIZE → mem.cells.length < USIZE →
      ((k = 0 ∨ mem.cells.length < k ∨ mem.cells.get? (mem.cells.length - k) = some none) →
        mem.point_back2 proj k = none)
      ∧ ∀ u, 0 < k → k ≤ mem.cells.length →
          mem.cells.get? (mem.cells.length - k) = some (some u) →
          mem.point_back2 proj k = proj u)
    ∧ utf8String ⟨[]⟩ [0x04, 0x01] = none := by
  refine ⟨?_, by decide⟩
  intro α proj mem k hk hL
  have hidx := wsub_spec mem.cells.length k hL hk
  constructor
  · rintro (rfl | hgt | huc)
    · have h2 : wsub mem.cells.length 0 = mem.cells.length := by rw [hidx]; simp
      unfold Memory.point_back2
      rw [h2, if_pos le_rfl]
    · have h2 : wsub mem.cells.length k = mem.cells.length + USIZE - k := by
        rw [hidx, if_neg (by omega)]
      unfold Memory.point_back2
      rw [h2, if_pos (by omega)]
    · by_cases hkl : k ≤ mem.cells.length
      · obtain ⟨hlt, -⟩ := List.get?_eq_some.mp huc
        have h2 : wsub mem.cells.length k = mem.cells.length - k := by
          rw [hidx, if_pos hkl]
        unfold Memory.point_back2
        rw [h2, if_neg (by omega), huc]
      · have h2 : wsub mem.cells.length k = mem.cells.length + USIZE - k := by
          rw [hidx, if_neg hkl]
        unfold Memory.point_back2
        rw [h2, if_pos (by omega)]
  · intro u hk0 hkl hget
    have h2 : wsub mem.cells.length k = mem.cells.length - k := by
      rw [hidx, if_pos hkl]
    unfold Memory.point_back2
    rw [h2, if_neg (by omega), hget]

/-- Witness for claim C2: a two-cell Memory with the older cell
completed and the newer one under construction; offset 2 resolves,
offset 1 hits the under-construction cell, offset 3 is out of range. -/
theorem claim_C2_witness :
    Memory.point_back2 tyStr.proj ⟨[some (.ustr [88]), none]⟩ 2 = some [88]
    ∧ Memory.point_back2 tyStr.proj ⟨[some (.ustr [88]), none]⟩ 1 = none
    ∧ Memory.point_back2 tyStr.proj ⟨[some (.ustr [88]), none]⟩ 3 = none := by
  refine ⟨?_, ?_, ?_⟩
  · exact ((claim_C2_point_back.1 Bytes tyStr.proj ⟨[some (.ustr [88]), none]⟩ 2
      (by decide) (by decide)).2 (.ustr [88]) (by decide) (by decide) (by decide)).trans
      (by decide)
  · exact (claim_C2_point_back.1 Bytes tyStr.proj ⟨[some (.ustr [88]), none]⟩ 1
      (by decide) (by decide)).1 (Or.inr (Or.inr (by decide)))
  · exact (claim_C2_point_back.1 Bytes tyStr.proj ⟨[some (.ustr [88]), none]⟩ 3
      (by decide) (by decide)).1 (Or.inr (Or.inl (by decide)))

/-- Counterexample to claim C5 as stated: the stream beginning with
the lead byte 0x82 does not decode to a pair at all, because 0x82 is a
block of tag 2 and length 0 under the decoder of src/src/parse.rs, so
the pair parser rejects it. -/
theorem claim_C5_counterexample :
    tuple2 tyPairStr (my utf8String) (my utf8String) ⟨[]⟩ [0x82, 0x21, 88, 0x04, 0x01]
      = none := by decide

/-- Claim C5 amended: the correct lead byte for the shared-pair stream
is 0xA0 (tag 0, length 2); that stream decodes to a pair whose two
components are the same string, the second obtained from the Memory
cell the back-pointer resolves to; in general a successful pointer
resolution returns exactly the projection of the stored cell, so two
references resolving to the same address yield the same value. -/
theorem claim_C5_amended :
    (∀ (α : Type) (proj : UVal → Option α) (mem : Memory) (k : Nat) (v : α),
      mem.point_back2 proj k = some v →
      ∃ u, mem.cells.get? (wsub mem.cells.length k) = some (some u) ∧ proj u = some v)
    ∧ (∀ (α : Type) (proj : UVal → Option α) (mem : Memory) (k k1 : Nat),
      wsub mem.cells.length k = wsub mem.cells.length k1 →
      mem.point_back2 proj k = mem.point_back2 proj k1)
    ∧ tuple2 tyPairStr (my utf8String) (my utf8String) ⟨[]⟩ [0xA0, 0x21, 88, 0x04, 0x01]
      = some (([88], [88]), ⟨[some (.upairStr ([88], [88])), some (.ustr [88])]⟩, []) := by
  refine ⟨?_, ?_, by decide⟩
  · intro α proj mem k v h
    unfold Memory.point_back2 at h
    split_ifs at h with hge
    split at h
    · rename_i u hg
      exact ⟨u, hg, h⟩
    · exact absurd h (by simp)
    · exact absurd h (by simp)
  · intro α proj mem k k1 hkk
    unfold Memory.point_back2
    rw [hkk]

/-- Witness for claim C5: in the decoded shared-pair Memory, the
back-pointer of offset 1 resolves to the stored string cell. -/
theorem claim_C5_witness :
    ∃ u, (⟨[some (.upairStr ([88], [88])), some (.ustr [88])]⟩ : Memory).cells.get?
      (wsub 2 1) = some (some u) ∧ tyStr.proj u = some [88] :=
  claim_C5_amended.1 Bytes tyStr.proj ⟨[some (.upairStr ([88], [88])), some (.ustr [88])]⟩
    1 [88] (by decide)

/-- Claim C9: the block combinator (hence vec and the blockN family
built on it) succeeds only when the next object is a back-pointer that
resolves in Memory or a block header of tag 0 and positive length; a
zero-length block (lead byte 0x80) and a block of nonzero tag (for
example lead byte 0x91) are rejected whatever the element parser. -/
theorem claim_C9_block_only_tag0_pos :
    (∀ (α : Type) (t : Ty α) (f : Nat → P α) (mem : Memory) (i : Bytes)
      (out : α × Memory × Bytes), block t f mem i = some out →
      ∃ i1, (∃ k v, parse_object i = some (.RPointer k, i1)
              ∧ mem.point_back2 t.proj k = some v)
        ∨ ∃ len, parse_object i = some (.RBlock 0 len, i1) ∧ 0 < len)
    ∧ (∀ fuel : Nat, vec tyListDirPath (dirPathGo fuel) ⟨[]⟩ [0x80] = none)
    ∧ (∀ fuel : Nat, vec tyListDirPath (dirPathGo fuel) ⟨[]⟩ [0x91, 0x40] = none) := by
  refine ⟨?_, fun fuel => rfl, fun fuel => rfl⟩
  intro α t f mem i out h
  unfold block at h
  split at h
  · rename_i k i1 hp
    cases hv : mem.point_back2 t.proj k with
    | none => rw [hv] at h; exact absurd h (by simp)
    | some v => exact ⟨i1, Or.inl ⟨k, v, hp, hv⟩⟩
  · rename_i len i1 hp
    by_cases hl : 0 < len
    · exact ⟨i1, Or.inr ⟨len, hp, hl⟩⟩
    · rw [if_neg hl] at h
      exact absurd h (by simp)
  · exact absurd h (by simp)

/-- Witness for claim C9: the shared-pair stream decodes through the
block combinator, whose lead object is a tag-0 block of length 2. -/
theorem claim_C9_witness :
    ∃ i1, (∃ k v, parse_object [0xA0, 0x21, 88, 0x04, 0x01] = some (.RPointer k, i1)
        ∧ Memory.point_back2 tyPairStr.proj ⟨[]⟩ k = some v)
      ∨ ∃ len, parse_object [0xA0, 0x21, 88, 0x04, 0x01] = some (.RBlock 0 len, i1)
        ∧ 0 < len :=
  claim_C9_block_only_tag0_pos.1 (Bytes × Bytes) tyPairStr
    (fun len mem i => if len = 2 then
        match my utf8String mem i with
        | some (a, m1, i1) =>
          match my utf8String m1 i1 with
          | some (b, m2, i2) => some ((a, b), m2, i2)
          | none => none
        | none => none
      else none)
    ⟨[]⟩ [0xA0, 0x21, 88, 0x04, 0x01]
    (([88], [88]), ⟨[some (.upairStr ([88], [88])), some (.ustr [88])]⟩, []) (by decide)


/-- Inversion of a successful segment parse: the stop offset and
header were read, the root parser ran on the body producing the final
Memory, all three fatal post-condition checks passed, and the 16-byte
digest was taken. -/
theorem segment_inv (α : Type) (f : P α) (file_len : Nat) (i : Bytes)
    (out : α × Nat × Bytes) (mem : Memory) (rest : Bytes)
    (hseg : segment f file_len i = some (out, mem, rest)) :
    ∃ stop i1 len s32 s64 objs i2 obj i3 dg,
      be_i32 i = some (stop, i1)
      ∧ header i1 = some ((len, s32, s64, objs), i2)
      ∧ f (Memory.with_capacity (toUSize objs)) i2 = some (obj, mem, i3)
      ∧ mem.len = toUSize objs
      ∧ wsub i2.length i3.length = toUSize len
      ∧ wsub file_len i3.length = toUSize stop
      ∧ takeP 16 i3 = some (dg, rest)
      ∧ out = (obj, toUSize stop, dg) := by
  unfold segment at hseg
  split at hseg
  · exact absurd hseg (by simp)
  rename_i stop i1 hbe
  split at hseg
  · exact absurd hseg (by simp)
  rename_i len s32 s64 objs i2 hhdr
  split at hseg
  · exact absurd hseg (by simp)
  rename_i obj mem1 i3 hf
  split_ifs at hseg with h1 h2 h3
  split at hseg
  · exact absurd hseg (by simp)
  rename_i dg i4 htk
  simp only [Option.some.injEq, Prod.mk.injEq] at hseg
  obtain ⟨ho, hm, hr⟩ := hseg
  subst hm
  subst hr
  subst ho
  exact ⟨stop, i1, len, s32, s64, objs, i2, obj, i3, dg, hbe, hhdr, hf,
    not_not.mp h1, not_not.mp h2, not_not.mp h3, htk, rfl⟩

/-- Counterexample to claim C1 as stated: a segment whose size64
header field is 9 is accepted by the segment driver with a final
Memory of length 6 (the objects field), so the Memory length is not
the size64 field. -/
theorem claim_C1_counterexample :
    (segment summary 69 FsegInput).map (fun r => r.2.1.len) = some 6
    ∧ (header (FsegInput.drop 4)).map (fun h => h.1.2.2.1) = some 9
    ∧ toUSize 9 ≠ 6 := by
  refine ⟨by decide, by decide, by decide⟩

/-- Claim C1 amended: for every segment the driver accepts, the Memory
is allocated with capacity taken from the objects field (the second of
the four signed integers after the segment magic, bound to the name
size in the source), and the final Memory length equals that same
objects field; a mismatch is fatal.  The size64 field is read and
discarded. -/
theorem claim_C1_amended (α : Type) (f : P α) (file_len : Nat) (i : Bytes)
    (out : α × Nat × Bytes) (mem : Memory) (rest : Bytes)
    (hseg : segment f file_len i = some (out, mem, rest)) :
    ∃ stop i1 len s32 s64 objs i2,
      be_i32 i = some (stop, i1)
      ∧ header i1 = some ((len, s32, s64, objs), i2)
      ∧ mem.len = toUSize objs := by
  obtain ⟨stop, i1, len, s32, s64, objs, i2, obj, i3, dg, hbe, hhdr, hf, hlen, -⟩ :=
    segment_inv α f file_len i out mem rest hseg
  exact ⟨stop, i1, len, s32, s64, objs, i2, hbe, hhdr, hlen⟩

/-- Witness for the amended claim C1 at the concrete test segment. -/
theorem claim_C1_witness :
    ∃ stop i1 len s32 s64 objs i2,
      be_i32 FsegInput = some (stop, i1)
      ∧ header i1 = some ((len, s32, s64, objs), i2)
      ∧ memF.len = toUSize objs :=
  claim_C1_amended Summary summary 69 FsegInput (sumVal, 53, List.replicate 16 0)
    memF [] (by decide)

/-- Claim C4: for every segment the driver accepts, the byte count
consumed by the body (the input length at the body start minus the
input length right before the digest) equals the declared length
field, and the absolute file offset after the body equals the declared
stop offset, both as wrapping usize comparisons; under the in-range
side conditions these are plain equalities.  Either mismatch is
fatal. -/
theorem claim_C4_consumption_and_stop (α : Type) (f : P α) (file_len : Nat) (i : Bytes)
    (out : α × Nat × Bytes) (mem : Memory) (rest : Bytes)
    (hseg : segment f file_len i = some (out, mem, rest)) :
    ∃ (stop : Int) (i1 : Bytes) (len s32 s64 objs : Int) (i2 i3 : Bytes),
      be_i32 i = some (stop, i1)
      ∧ header i1 = some ((len, s32, s64, objs), i2)
      ∧ i3.length = rest.length + 16
      ∧ wsub i2.length i3.length = toUSize len
      ∧ wsub file_len i3.length = toUSize stop
      ∧ (i2.length < USIZE → i3.length ≤ i2.length →
          i2.length - i3.length = toUSize len)
      ∧ (file_len < USIZE → i3.length ≤ file_len →
          file_len - i3.length = toUSize stop) := by
  obtain ⟨stop, i1, len, s32, s64, objs, i2, obj, i3, dg, hbe, hhdr, hf, hlen,
    hcons, hstop, htk, ho⟩ := segment_inv α f file_len i out mem rest hseg
  obtain ⟨-, hrest, h16⟩ := takeP_eq_some htk
  have hi3 : i3.length = rest.length + 16 := by
    rw [hrest, List.length_drop]
    omega
  refine ⟨stop, i1, len, s32, s64, objs, i2, i3, hbe, hhdr, hi3, hcons, hstop,
    fun hU hle => ?_, fun hU hle => ?_⟩
  · rw [← hcons, wsub_spec i2.length i3.length hU (by omega), if_pos hle]
  · rw [← hstop, wsub_spec file_len i3.length hU (by omega), if_pos hle]

/-- Witness for claim C4 at the concrete test segment. -/
theorem claim_C4_witness :
    ∃ (stop : Int) (i1 : Bytes) (len s32 s64 objs : Int) (i2 i3 : Bytes),
      be_i32 FsegInput = some (stop, i1)
      ∧ header i1 = some ((len, s32, s64, objs), i2)
      ∧ i3.length = ([] : Bytes).length + 16
      ∧ wsub i2.length i3.length = toUSize len
      ∧ wsub 69 i3.length = toUSize stop
      ∧ (i2.length < USIZE → i3.length ≤ i2.length →
          i2.length - i3.length = toUSize len)
      ∧ (69 < USIZE → i3.length ≤ 69 → 69 - i3.length = toUSize stop) :=
  claim_C4_consumption_and_stop Summary summary 69 FsegInput
    (sumVal, 53, List.replicate 16 0) memF [] (by decide)


set_option maxRecDepth 100000 in
/-- Counterexample to claim C3 as stated: the decoder accepts the
concrete 69-byte file whose 16-byte tail is all zeros, yet the MD5
digest of the 53 preceding bytes is not that tail: the checksum
comparison is commented out in src/src/parse.rs, so no accepted-file
checksum property holds. -/
theorem claim_C3_counterexample :
    file F0 = some () ∧ md5 (F0.take (F0.length - 16)) ≠ F0.drop (F0.length - 16) := by
  refine ⟨by decide, by decide⟩

/-- Claim C3 amended: the top-level decoder reads the final 16 bytes
as an opaque digest and performs no checksum verification (the MD5
comparison in file_contents is commented out), so acceptance is
independent of the tail: two files sharing the first 53 bytes but
differing in the 16-byte tail are both accepted, although at most one
tail could equal the MD5 of the prefix. -/
theorem claim_C3_amended :
    file F0 = some () ∧ file F1 = some ()
    ∧ F0.take (F0.length - 16) = F1.take (F1.length - 16)
    ∧ F0.drop (F0.length - 16) ≠ F1.drop (F1.length - 16) := by
  refine ⟨by decide, by decide, by decide, by decide⟩

/-- Claim C10: the top-level file parser accepts only inputs that
start with the 4-byte big-endian file magic 8991 followed by one
summary segment that reaches exactly the end of the input (its digest
is the last 16 bytes); any trailing bytes make the segment parse of
the remainder fail to end empty, so the input is rejected. -/
theorem claim_C10_exact_file_shape (i : Bytes) (h256 : ∀ b ∈ i, b < 256)
    (h : file i = some ()) :
    i.take 4 = [0, 0, 35, 31]
    ∧ ∃ out mem, segment summary i.length (i.drop 4) = some (out, mem, []) := by
  unfold file all_consuming at h
  split at h
  case _ v heq =>
    unfold file_contents at heq
    split at heq
    · exact absurd heq (by simp)
    rename_i i1 hvm
    split at heq
    · exact absurd heq (by simp)
    rename_i t mem1 rest hseg
    simp only [Option.some.injEq, Prod.mk.injEq] at heq
    obtain ⟨-, hrest⟩ := heq
    unfold vo_magic at hvm
    rcases hbe : be_i32 i with _ | ⟨m, i1x⟩
    · rw [hbe] at hvm; exact absurd hvm (by simp)
    rw [hbe] at hvm
    simp only [] at hvm
    split_ifs at hvm with hm
    simp only [Option.some.injEq] at hvm
    subst hvm
    unfold be_i32 at hbe
    cases hbu : be_u32 i with
    | none => rw [hbu] at hbe; exact absurd hbe (by simp)
    | some p =>
      obtain ⟨n, r⟩ := p
      rw [hbu] at hbe
      simp only [Option.map_some', Option.some.injEq, Prod.mk.injEq] at hbe
      obtain ⟨hts, hr⟩ := hbe
      obtain ⟨b0, b1, b2, b3, hi, hn⟩ := be_u32_shape i n r hbu
      have hb0 : b0 < 256 := h256 b0 (by rw [hi]; exact List.mem_cons_self ..)
      have hb1 : b1 < 256 := h256 b1 (by rw [hi]; simp)
      have hb2 : b2 < 256 := h256 b2 (by rw [hi]; simp)
      have hb3 : b3 < 256 := h256 b3 (by rw [hi]; simp)
      have hn8991 : n = 8991 := by
        unfold toSigned at hts
        rw [hm] at hts
        split_ifs at hts with hlt
        · exact_mod_cast hts
        · omega
      have hb : b0 = 0 ∧ b1 = 0 ∧ b2 = 35 ∧ b3 = 31 := by omega
      obtain ⟨rfl, rfl, rfl, rfl⟩ := hb
      subst hi
      refine ⟨rfl, t, mem1, ?_⟩
      rw [hrest] at hseg
      simpa [hr] using hseg
  case _ hne =>
    exact absurd h (by simp)

/-- Witness for claim C10 at the concrete accepted file. -/
theorem claim_C10_witness :
    F0.take 4 = [0, 0, 35, 31]
    ∧ ∃ out mem, segment summary F0.length (F0.drop 4) = some (out, mem, []) :=
  claim_C10_exact_file_shape F0 (by decide) (by decide)

/-- Counterexample to claim C8 as stated, refuting both of its byte
examples.  First, the single byte 0x40 (the immediate integer zero)
does not decode to the empty DirPath: the DirPath projection of
src/src/types.rs accepts only a tag-0 struct cell, and a root that is
an immediate integer resolves to nothing, so an Int(0) yields the
empty path only in the nullable tail position.  Second, the bytes
0x81 0x21 M 0x40 do not decode to the one-segment DirPath: the lead
byte 0x81 is a block of tag 1 and length 0 under the decoder of
src/src/parse.rs, so the typed projection fails entirely. -/
theorem claim_C8_counterexample :
    decodeDirPath [0x40] ≠ some []
    ∧ decodeDirPath [0x40] = none
    ∧ decodeDirPath [0x81, 0x21, 77, 0x40] ≠ some [[77]]
    ∧ decodeDirPath [0x81, 0x21, 77, 0x40] = none := by
  refine ⟨by decide, by decide, by decide, by decide⟩

/-- Claim C8 amended: the DirPath projection of src/src/types.rs
decodes a right-recursive nullable list whose empty case arises only
in the nullable tail position: a tail that is the immediate integer
zero is resolved as absent and contributes no segments (a bare Int(0)
root is not projected to an empty DirPath), a tag-0 cons cell of a
head string and a tail projects to the head followed by the tail
segments (source order), and the one-segment example uses the lead
byte 0xA0 (tag 0, length 2), not 0x81: those bytes decode to the
DirPath of the single segment M. -/
theorem claim_C8_amended :
    (∀ (R : Data → Mem2 → Option (Option DirPath × Mem2)) (d0 d1 : Data)
      (mem m1 m2 : Mem2) (head : Bytes) (tailOpt : Option DirPath),
      resolveString d0 mem = some (head, m1) →
      R d1 m1 = some (tailOpt, m2) →
      dirPathFromCellGen R (.mstruct 0 [d0, d1]) mem =
        some (head :: tailOpt.getD [], m2))
    ∧ (∀ (R : Data → Mem2 → Option (DirPath × Mem2)) (mem : Mem2),
      resolveNullableGen R (.int 0) mem = some (none, mem))
    ∧ decodeDirPath [0xA0, 0x21, 77, 0x40] = some [[77]] := by
  refine ⟨?_, fun R mem => rfl, by decide⟩
  intro R d0 d1 mem m1 m2 head tailOpt h1 h2
  cases tailOpt with
  | none => simp only [dirPathFromCellGen, h1, h2, Option.getD]
  | some t => simp only [dirPathFromCellGen, h1, h2, Option.getD]

/-- Witness for claim C8 at the cons cell of the amended example. -/
theorem claim_C8_witness :
    dirPathFromCellGen (resolveNullableGen (resolveDirPath 3))
      (.mstruct 0 [.ptr 1, .int 0]) [.mstruct 0 [.ptr 1, .int 0], .mstring [77]] =
      some ([[77]], [.mstruct 0 [.ptr 1, .int 0], .resolved (.rstr [77])]) :=
  claim_C8_amended.1 (resolveNullableGen (resolveDirPath 3)) (.ptr 1) (.int 0)
    [.mstruct 0 [.ptr 1, .int 0], .mstring [77]]
    [.mstruct 0 [.ptr 1, .int 0], .resolved (.rstr [77])]
    [.mstruct 0 [.ptr 1, .int 0], .resolved (.rstr [77])]
    [77] none (by decide) (by decide)

end Mathparse
